import Mathlib

/-!
Shallow embedding of the golisp interpreter sources (prim_vector.go, the
arithmetic/special-form builtins file, and the debugger file), together with
proofs of the specification claims about them.

Conventions of the embedding:
* A lisp `*Data` value is the inductive `Data` below.  A Go `nil` pointer used
  as a lisp value is `Data.nil`.
* Go slices (`[]*Data`) share their backing array.  A lisp vector is therefore
  represented as a view `(arrayId, offset, length)` into a `Store`, a list of
  backing arrays; writes through one view are observable through every aliasing
  view, exactly as with Go slices.
* Argument lists handed to primitives by the evaluator are always proper lisp
  lists; they are embedded as `List Data`, with the list accessors `Car`,
  `Cdr`, `First`, ... defined on that representation.
* Go `int` is embedded as `Int`, with every arithmetic step reduced by
  `wrap64` — Go's two's-complement wraparound into `[-2^63, 2^63)` — so
  overflow behaves exactly as in the program (including `-minInt64 = minInt64`
  and `minInt64 / -1 = minInt64`).
* A primitive body returns `(result *Data, err error)`; this is the
  `Outcome.ret (result : Option Data) (err : Option String)` constructor.
  A Go runtime fault (out-of-range slice access, integer division by zero)
  aborts the body instead of returning; it is the `Outcome.panic` constructor.
* `ProcessError` in non-debugging mode returns `errors.New(msg)`; the vector
  primitives are modelled in that mode, so `ProcessError(msg, env)` appears as
  `some msg` in their error component.  `ProcessError` itself, with the debug
  flags live, is modelled separately for the debugger claims.
-/

namespace GoLisp

/-- The tagged lisp datum type.  A vector holds a view into the `Store`:
the id of its backing array, the view offset, and the view length
(the three components of a Go slice). -/
inductive Data where
  | nil : Data
  | number (n : Int) : Data
  | boolean (b : Bool) : Data
  | str (s : String) : Data
  | symbol (s : String) : Data
  | pair (hd tl : Data) : Data
  | vector (arrayId offset length : Nat) : Data
  deriving DecidableEq, Repr

/-- The type tags, as tested by `TypeOf(x) == NumberType` etc. -/
inductive DataType where
  | NilType | NumberType | BooleanType | StringType | SymbolType
  | PairType | VectorType
  deriving DecidableEq, Repr

def TypeOf : Data → DataType
  | .nil => .NilType
  | .number _ => .NumberType
  | .boolean _ => .BooleanType
  | .str _ => .StringType
  | .symbol _ => .SymbolType
  | .pair _ _ => .PairType
  | .vector _ _ _ => .VectorType

/-- `IntValue` / `IntegerValue`: the numeric accessor, preconditioned on the
caller having checked the number predicate (source contract 4.1). -/
def IntValue : Data → Int
  | .number n => n
  | _ => 0

def NumberWithValue (n : Int) : Data := Data.number n

def IntegerP : Data → Bool
  | .number _ => true
  | _ => false

def VectorP : Data → Bool
  | .vector _ _ _ => true
  | _ => false

def BooleanWithValue (b : Bool) : Data := Data.boolean b

def StringWithValue (s : String) : Data := Data.str s

/-! Accessors over an argument list (a proper lisp list, embedded as
`List Data`).  `Car` of an exhausted list is the nil pointer. -/

def Car (args : List Data) : Data := args.headD Data.nil
def Cdr (args : List Data) : List Data := args.tail
def Cadr (args : List Data) : Data := (args.drop 1).headD Data.nil
def Caddr (args : List Data) : Data := (args.drop 2).headD Data.nil
def Cdddr (args : List Data) : List Data := args.drop 3
def First (args : List Data) : Data := Car args
def Second (args : List Data) : Data := Cadr args
def Third (args : List Data) : Data := Caddr args
def Fourth (args : List Data) : Data := (args.drop 3).headD Data.nil
def Fifth (args : List Data) : Data := (args.drop 4).headD Data.nil
def Length (args : List Data) : Nat := args.length

/-- The two-way return of a Go primitive body, plus the native-fault outcome:
`ret result err` is an ordinary `return result, err`; `panic` is an uncaught
Go runtime fault (the body never returns). -/
inductive Outcome where
  | ret (result : Option Data) (err : Option String) : Outcome
  | panic (msg : String) : Outcome
  deriving DecidableEq, Repr

/-! ### Arithmetic primitives (builtins source file) -/

/-- Go 64-bit `int` wraparound: the two's-complement reduction of an exact
integer result into `[-2^63, 2^63)`.  Every Go `int` operation (`+`, `-`,
`*`, unary `-`, and `/` in its single overflow case `minInt64 / -1`) yields
exactly `wrap64` of the exact result. -/
def wrap64 (x : Int) : Int := (x + 2 ^ 63) % 2 ^ 64 - 2 ^ 63

/-- The loop of `Add`: `for c := args; NotNilP(c); c = Cdr(c)` accumulating
`acc += IntValue(Car(c))` with Go's wrapping addition, bailing out on the
first non-number. -/
def addLoop (acc : Int) : List Data → Outcome
  | [] => .ret (some (NumberWithValue acc)) none
  | h :: t =>
    if TypeOf h ≠ DataType.NumberType then .ret none (some "Number expected")
    else addLoop (wrap64 (acc + IntValue h)) t

def Add (args : List Data) : Outcome := addLoop 0 args

/-- The loop of `Subtract`: `acc -= IntValue(Car(c))` with Go's wrapping
subtraction, bailing out on the first non-number. -/
def subLoop (acc : Int) : List Data → Outcome
  | [] => .ret (some (NumberWithValue acc)) none
  | h :: t =>
    if TypeOf h ≠ DataType.NumberType then .ret none (some "Number expected")
    else subLoop (wrap64 (acc - IntValue h)) t

def Subtract (args : List Data) : Outcome :=
  if TypeOf (Car args) ≠ DataType.NumberType then .ret none (some "Number expected")
  else
    let acc := IntValue (Car args)
    if Length args = 1 then .ret (some (NumberWithValue (wrap64 (-acc)))) none
    else subLoop acc (Cdr args)

def mulLoop (acc : Int) : List Data → Outcome
  | [] => .ret (some (NumberWithValue acc)) none
  | h :: t =>
    if TypeOf h ≠ DataType.NumberType then .ret none (some "Number expected")
    else mulLoop (wrap64 (acc * IntValue h)) t

def Multiply (args : List Data) : Outcome := mulLoop 1 args

/-- Go integer division `acc /= d`: truncated division (wrapping in its one
overflow case `minInt64 / -1`), and a runtime panic when the divisor is
zero. -/
def quotLoop (acc : Int) : List Data → Outcome
  | [] => .ret (some (NumberWithValue acc)) none
  | h :: t =>
    if TypeOf h ≠ DataType.NumberType then .ret none (some "Number expected")
    else if IntValue h = 0 then .panic "runtime error: integer divide by zero"
    else quotLoop (wrap64 (Int.tdiv acc (IntValue h))) t

def Quotient (args : List Data) : Outcome :=
  if TypeOf (Car args) ≠ DataType.NumberType then .ret none (some "Number expected")
  else quotLoop (IntValue (Car args)) (Cdr args)

/-! ### The `If` special form (builtins source file) -/

/-- Modelled from the spec: `BooleanValue` is declared outside the sources at
hand; spec 4.3 fixes truthiness as "not exactly Boolean-false" (Nil, 0, etc.
are truthy). -/
def BooleanValue (d : Data) : Bool := d ≠ Data.boolean false

/-- The `If` special form.  `Eval` lives outside the sources at hand, so the
body is parameterized by the evaluation function `ev`; the second component of
the result is the instrumentation trace listing, in order, every expression on
which `ev` was invoked, so that "branch B is never evaluated" is the statement
that B does not appear in trace positions.  The body follows the source line
by line: the condition is evaluated, the clauses are extracted, the extra
trailing clause check fires, and then exactly one branch is evaluated. -/
def If (ev : Data → Data) (args : List Data) : (Option Data × Option String) × List Data :=
  let condition := BooleanValue (ev (Car args))
  let thenClause := Cadr args
  let elseClause := Caddr args
  if Cdddr args ≠ [] then
    ((none, some "Too many arguments to IF"), [Car args])
  else if condition then
    ((some (ev thenClause), none), [Car args, thenClause])
  else
    ((some (ev elseClause), none), [Car args, elseClause])

/-! ### Vectors and the slice store (prim_vector.go)

A Go slice `[]*Data` is a view `(arrayId, offset, length)` into a backing
array; the `Store` is the list of all backing arrays.  Slicing shares the
array; `make` + copy allocates a fresh one. -/

/-- All backing arrays, indexed by array id. -/
abbrev Store := List (List Data)

/-- The backing array of an id. -/
def Store.arr (s : Store) (id : Nat) : List Data := List.getD s id []

/-- Replace one backing array. -/
def Store.setArr (s : Store) (id : Nat) (a : List Data) : Store := List.set s id a

/-- Allocate a fresh backing array (`make([]*Data, ...)` and friends),
returning the extended store and the new id. -/
def Store.alloc (s : Store) (a : List Data) : Store × Nat := (s ++ [a], List.length s)

/-- Vector view accessors (preconditioned on `VectorP`, source contract 4.1). -/
def vecId : Data → Nat
  | .vector id _ _ => id
  | _ => 0

def vecOff : Data → Nat
  | .vector _ off _ => off
  | _ => 0

def vecLen : Data → Nat
  | .vector _ _ len => len
  | _ => 0

/-- `VectorValue(v)` as an immutable snapshot: the elements currently visible
through the view. -/
def VectorValue (s : Store) (v : Data) : List Data :=
  (List.drop (vecOff v) (s.arr (vecId v))).take (vecLen v)

/-- A vector view is well-formed in a store when its id exists and its
window fits inside the backing array. -/
def wfVec (s : Store) (v : Data) : Prop :=
  vecId v < List.length s ∧ vecOff v + vecLen v ≤ List.length (s.arr (vecId v))

instance (s : Store) (v : Data) : Decidable (wfVec s v) := by
  unfold wfVec
  infer_instance

/-- Go slice read `values[i]` with `i : int`: in range it yields the element,
out of range it is a runtime panic (`none` here). -/
def goSliceGet (s : Store) (v : Data) (i : Int) : Option Data :=
  if 0 ≤ i ∧ i < (vecLen v : Int) then
    some (List.getD (s.arr (vecId v)) (vecOff v + i.toNat) Data.nil)
  else none

/-- Go slice write `values[i] = x`: in range it updates the backing array
through the view, out of range it is a runtime panic (`none` here). -/
def goSliceSet (s : Store) (v : Data) (i : Int) (x : Data) : Option Store :=
  if 0 ≤ i ∧ i < (vecLen v : Int) then
    some (s.setArr (vecId v) (List.set (s.arr (vecId v)) (vecOff v + i.toNat) x))
  else none

/-- `vector-ref`.  The source checks `index >= len(values)` (an `int`
comparison) and then executes the unchecked slice read `values[index]`;
a negative index passes the check and faults at the read. -/
def VectorRefImpl (s : Store) (args : List Data) : Outcome :=
  let v := First args
  if ¬ VectorP v then
    .ret none (some "vector-ref needs a vector as its first argument")
  else
    let k := Second args
    if ¬ IntegerP k then
      .ret none (some "vector-ref needs an integer as its second argument")
    else
      let index := IntValue k
      if index ≥ (vecLen v : Int) then
        .ret none (some "vector-ref needs an index less than the vector length")
      else
        match goSliceGet s v index with
        | some d => .ret (some d) none
        | none => .panic "runtime error: index out of range"

/-- `vector-set!`.  The source checks only the types of its first two
arguments and then executes the unchecked slice write `values[kval] = newValue`;
any out-of-range index faults at the write. -/
def VectorSetImpl (s : Store) (args : List Data) : Outcome × Store :=
  let v := First args
  if ¬ VectorP v then
    (.ret none (some "vector-set! needs a vector as its first argument"), s)
  else
    let k := Second args
    if ¬ IntegerP k then
      (.ret none (some "vector-set! needs an integer as its second argument"), s)
    else
      let kval := IntValue k
      let newValue := Third args
      match goSliceSet s v kval newValue with
      | some s2 => (.ret (some (StringWithValue "OK")) none, s2)
      | none => (.panic "runtime error: index out of range", s)

/-- `vector-copy`: appends every element into a freshly made slice, so the
result has a fresh backing array. -/
def VectorCopyImpl (s : Store) (args : List Data) : Outcome × Store :=
  let vect := First args
  if ¬ VectorP vect then
    (.ret none (some "vector-copy needs a vector as its argument"), s)
  else
    let newV := VectorValue s vect
    let alloc := s.alloc newV
    (.ret (some (Data.vector alloc.2 0 (vecLen vect))) none, alloc.1)

/-- `vector-grow`: rejects a size not larger than the current length, else
makes a fresh slice of the new size and copies the old elements into its
front (the remainder is the zero value of `*Data`, the nil pointer). -/
def VectorGrowImpl (s : Store) (args : List Data) : Outcome × Store :=
  let v := First args
  if ¬ VectorP v then
    (.ret none (some "vector-grow needs a vector as its first argument"), s)
  else
    let originalValues := VectorValue s v
    let k := Second args
    if ¬ IntegerP k then
      (.ret none (some "vector-grow needs an integer as its second argument"), s)
    else
      let size := IntValue k
      if size ≤ (List.length originalValues : Int) then
        (.ret none (some "vector-grow needs a new size that is larger than the size of its vector argument"), s)
      else
        let vals := originalValues ++ List.replicate (size.toNat - List.length originalValues) Data.nil
        let alloc := s.alloc vals
        (.ret (some (Data.vector alloc.2 0 size.toNat)) none, alloc.1)

/-- `subvector`: after the range checks, returns `values[startIndex:endIndex]`
— a view into the same backing array. -/
def SubVectorImpl (s : Store) (args : List Data) : Outcome :=
  let v := First args
  if ¬ VectorP v then
    .ret none (some "subvector needs a vector as its argument")
  else
    let values := VectorValue s v
    let start := Second args
    if ¬ IntegerP start then
      .ret none (some "subvector needs an integer as its starting index")
    else
      let startIndex := IntValue start
      if startIndex < 0 ∨ startIndex ≥ (List.length values : Int) then
        .ret none (some "subvector starting index is out of bounds")
      else
        let endx := Third args
        if ¬ IntegerP endx then
          .ret none (some "subvector needs an integer as its ending index")
        else
          let endIndex := IntValue endx
          if endIndex < startIndex ∨ endIndex > (List.length values : Int) then
            .ret none (some "subvector ending index is out of bounds")
          else
            .ret (some (Data.vector (vecId v) (vecOff v + startIndex.toNat)
              (endIndex.toNat - startIndex.toNat))) none

/-- `vector-head`: after the range check, returns `values[:endIndex]` —
a view into the same backing array. -/
def VectorHeadImpl (s : Store) (args : List Data) : Outcome :=
  let v := First args
  if ¬ VectorP v then
    .ret none (some "vector-head needs a vector as its argument")
  else
    let values := VectorValue s v
    let endx := Second args
    if ¬ IntegerP endx then
      .ret none (some "vector-head needs an integer as its ending index")
    else
      let endIndex := IntValue endx
      if endIndex < 0 ∨ endIndex > (List.length values : Int) then
        .ret none (some "vector-head ending index is out of bounds")
      else
        .ret (some (Data.vector (vecId v) (vecOff v) endIndex.toNat)) none

/-- `vector-tail`: after the range check, returns `values[startIndex:]` —
a view into the same backing array. -/
def VectorTailImpl (s : Store) (args : List Data) : Outcome :=
  let v := First args
  if ¬ VectorP v then
    .ret none (some "vector-tail needs a vector as its argument")
  else
    let values := VectorValue s v
    let start := Second args
    if ¬ IntegerP start then
      .ret none (some "vector-tail needs an integer as its starting index")
    else
      let startIndex := IntValue start
      if startIndex < 0 ∨ startIndex > (List.length values : Int) then
        .ret none (some "vector-tail starting index is out of bounds")
      else
        .ret (some (Data.vector (vecId v) (vecOff v + startIndex.toNat)
          (vecLen v - startIndex.toNat))) none

/-- `vector-binary-search`: the body is an empty stub, `return` with both
named results at their zero values. -/
def VectorBinarySearchImpl (s : Store) (args : List Data) : Outcome :=
  .ret none none

/-- `RegisterVectorPrimitives` as the list of (name, arity spec) pairs it
passes to `MakePrimitiveFunction`. -/
def RegisterVectorPrimitives : List (String × String) :=
  [("make-vector", "1|2"), ("vector", ">=1"), ("vector-copy", "1"),
   ("list->vector", "1"), ("vector->list", "1"), ("make-initialized-vector", "2"),
   ("vector-grow", "2"), ("vector-map", ">=2"), ("vector-for-each", ">=2"),
   ("vector-reduce", "3"), ("vector-filter", "2"), ("vector-remove", "2"),
   ("vector?", "1"), ("vector-length", "1"), ("vector-ref", "2"),
   ("vector-set!", "3"), ("vector-first", "1"), ("vector-second", "1"),
   ("vector-third", "1"), ("vector-fourth", "1"), ("vector-fifth", "1"),
   ("vector-sixth", "1"), ("vector-seventh", "1"), ("vector-eighth", "1"),
   ("vector-ninth", "1"), ("vector-tenth", "1"), ("vector-binary-search", "4"),
   ("vector-find", "2"), ("subvector", "3"), ("vector-head", "2"),
   ("vector-tail", "2"), ("vector-fill!", "2"), ("subvector-fill!", "4"),
   ("subvector-move-left!", "5"), ("subvector-move-right!", "5"),
   ("vector-sort", "2"), ("vector-sort!", "2")]

/-! ### Debug controller (debugger source file)

The process-scoped debugger globals are gathered into one `DebugState`
record.  `ReadLine`, `Parse` and `Eval` live outside the sources at hand, so
the command loop consumes a list of already-dispatched command inputs, with
the `:r`/expression payloads carrying the outcome of the parse-then-eval of
the typed text (modelled from the spec: the line is evaluated in the paused
frame). -/

/-- An environment frame chain; the loop only ever consults `Parent`. -/
inductive Frame where
  | root : Frame
  | child (parent : Frame) : Frame
  deriving DecidableEq

def Frame.hasParent : Frame → Bool
  | .root => false
  | .child _ => true

/-- The debugger globals (`DebugTrace`, `DebugOnError`, `IsInteractive`,
`DebugSingleStep`, `DebugEvalInDebugRepl`, `DebugCurrentFrame`,
`DebugReturnValue`). -/
structure DebugState where
  DebugTrace : Bool
  DebugOnError : Bool
  IsInteractive : Bool
  DebugSingleStep : Bool
  DebugEvalInDebugRepl : Bool
  DebugCurrentFrame : Option Frame
  DebugReturnValue : Option Data
  deriving DecidableEq

/-- One line of debugger input, already dispatched on its command code.
`ret` and `expr` carry the result of parsing and evaluating the typed text
(that evaluation happens with `DebugEvalInDebugRepl` set, and the flag is
reset before the result is inspected, exactly as in the source). -/
inductive DebugInput where
  | help : DebugInput
  | showStack : DebugInput
  | cont : DebugInput
  | fullDump : DebugInput
  | onError (parsed : Option Bool) : DebugInput
  | dumpFrame (parsed : Option Int) : DebugInput
  | quit : DebugInput
  | ret (evalResult : Except String Data) : DebugInput
  | step : DebugInput
  | trace (parsed : Option Bool) : DebugInput
  | up : DebugInput
  | expr (evalResult : Except String Data) : DebugInput
  | empty : DebugInput

/-- How a `DebugRepl` invocation ends: the loop `return`s, the `:q` command
terminates the process, or the input source is exhausted (the real loop would
block forever on `ReadLine`). -/
inductive ReplOutcome where
  | returned (st : DebugState) : ReplOutcome
  | quitted (st : DebugState) : ReplOutcome
  | blocked (st : DebugState) : ReplOutcome
  deriving DecidableEq

/-- The debugger command loop, one source `switch` arm per input form.
State-only commands iterate; `:c`, `:r` (on successful evaluation), `:s` and
`:u` (below the top frame) `return`. -/
def DebugRepl (env : Frame) (st : DebugState) : List DebugInput → ReplOutcome
  | [] => .blocked st
  | input :: rest =>
    match input with
    | .empty => DebugRepl env st rest
    | .help => DebugRepl env st rest
    | .showStack => DebugRepl env st rest
    | .cont =>
      .returned { st with DebugCurrentFrame := none, DebugSingleStep := false,
                          DebugEvalInDebugRepl := false }
    | .fullDump => DebugRepl env st rest
    | .onError parsed =>
      match parsed with
      | some b => DebugRepl env { st with DebugOnError := b } rest
      | none => DebugRepl env st rest
    | .dumpFrame _ => DebugRepl env st rest
    | .quit => .quitted st
    | .ret evalResult =>
      match evalResult with
      | .error _ => DebugRepl env { st with DebugEvalInDebugRepl := false } rest
      | .ok d =>
        .returned { st with DebugReturnValue := some d, DebugCurrentFrame := none,
                            DebugSingleStep := false, DebugEvalInDebugRepl := false }
    | .step => .returned { st with DebugSingleStep := true }
    | .trace parsed =>
      match parsed with
      | some b => DebugRepl env { st with DebugTrace := b } rest
      | none => DebugRepl env st rest
    | .up =>
      if env.hasParent then .returned { st with DebugCurrentFrame := some env }
      else DebugRepl env st rest
    | .expr evalResult =>
      match evalResult with
      | .error _ => DebugRepl env { st with DebugEvalInDebugRepl := false } rest
      | .ok _ => DebugRepl env { st with DebugEvalInDebugRepl := false } rest

/-- How a `ProcessError` call ends: either the error propagates to the
caller (`errorReturned`, the `errors.New` branch), or the failure was rerouted
into the debugger command loop and `ProcessError` returns `nil`. -/
inductive PEOutcome where
  | errorReturned (msg : String) (st : DebugState) : PEOutcome
  | replExited (ro : ReplOutcome) : PEOutcome
  deriving DecidableEq

def ReplOutcome.state : ReplOutcome → DebugState
  | .returned st => st
  | .quitted st => st
  | .blocked st => st

/-- `ProcessError`: reroutes into `DebugRepl` (and returns no error) exactly
when `DebugOnError && IsInteractive && !DebugEvalInDebugRepl`, else returns
`errors.New(errorMessage)`. -/
def ProcessError (errorMessage : String) (env : Frame) (st : DebugState)
    (inputs : List DebugInput) : PEOutcome :=
  if st.DebugOnError && st.IsInteractive && !st.DebugEvalInDebugRepl then
    .replExited (DebugRepl env st inputs)
  else
    .errorReturned errorMessage st

/-- The `error` value a `ProcessError` call hands back to the failing
primitive (`nil` when the failure was rerouted into the debugger). -/
def PEOutcome.returnedError : PEOutcome → Option String
  | .errorReturned msg _ => some msg
  | .replExited _ => none

/-- Modelled from the spec: the evaluator (not among the sources at hand)
consults the pending override result after a rerouted failure — when
`ProcessError` returns no error and `DebugReturnValue` was set by a
return-with-value command, that value becomes the successful result of the
originally failing evaluation; a propagated error stays an error. -/
def resumeAfterError (pe : PEOutcome) : Except String (Option Data) :=
  match pe with
  | .errorReturned msg _ => .error msg
  | .replExited ro => .ok ro.state.DebugReturnValue

/-- A debug state with break-on-error enabled, interactive execution, and a
failure not originating at the debugger prompt. -/
def breakOnErrorState : DebugState :=
  { DebugTrace := false, DebugOnError := true, IsInteractive := true,
    DebugSingleStep := false, DebugEvalInDebugRepl := false,
    DebugCurrentFrame := none, DebugReturnValue := none }

/-! ### Helper lemmas about `wrap64` and the arithmetic loops -/

theorem wrap64_emod (x : Int) : wrap64 x % 2 ^ 64 = x % 2 ^ 64 := by
  unfold wrap64
  omega

theorem wrap64_congr (x y : Int) (h : x % 2 ^ 64 = y % 2 ^ 64) :
    wrap64 x = wrap64 y := by
  unfold wrap64
  omega

theorem wrap64_add_left (a b : Int) : wrap64 (wrap64 a + b) = wrap64 (a + b) :=
  wrap64_congr _ _ (by rw [Int.add_emod, wrap64_emod, ← Int.add_emod])

theorem wrap64_mul_left (a b : Int) : wrap64 (wrap64 a * b) = wrap64 (a * b) :=
  wrap64_congr _ _ (by rw [Int.mul_emod, wrap64_emod, ← Int.mul_emod])

theorem foldl_wrapAdd (a : Int) (xs : List Int) :
    List.foldl (fun x y => wrap64 (x + y)) (wrap64 a) xs = wrap64 (a + xs.sum) := by
  induction xs generalizing a with
  | nil => simp
  | cons h t ih =>
    simp only [List.foldl_cons, List.sum_cons, wrap64_add_left]
    rw [ih, add_assoc]

theorem foldl_wrapMul (a : Int) (xs : List Int) :
    List.foldl (fun x y => wrap64 (x * y)) (wrap64 a) xs = wrap64 (a * xs.prod) := by
  induction xs generalizing a with
  | nil => simp
  | cons h t ih =>
    simp only [List.foldl_cons, List.prod_cons, wrap64_mul_left]
    rw [ih, mul_assoc]

theorem addLoop_map_number (acc : Int) (xs : List Int) :
    addLoop acc (xs.map Data.number)
      = .ret (some (Data.number
          (List.foldl (fun x y => wrap64 (x + y)) acc xs))) none := by
  induction xs generalizing acc with
  | nil => simp [addLoop, NumberWithValue]
  | cons h t ih => simp [addLoop, TypeOf, IntValue, ih]

theorem mulLoop_map_number (acc : Int) (xs : List Int) :
    mulLoop acc (xs.map Data.number)
      = .ret (some (Data.number
          (List.foldl (fun x y => wrap64 (x * y)) acc xs))) none := by
  induction xs generalizing acc with
  | nil => simp [mulLoop, NumberWithValue]
  | cons h t ih => simp [mulLoop, TypeOf, IntValue, ih]

theorem subLoop_map_number (acc : Int) (xs : List Int) :
    subLoop acc (xs.map Data.number)
      = .ret (some (Data.number
          (List.foldl (fun x y => wrap64 (x - y)) acc xs))) none := by
  induction xs generalizing acc with
  | nil => simp [subLoop, NumberWithValue]
  | cons h t ih => simp [subLoop, TypeOf, IntValue, ih]

theorem quotLoop_map_number (acc : Int) (xs : List Int) (hnz : ∀ d ∈ xs, d ≠ 0) :
    quotLoop acc (xs.map Data.number)
      = .ret (some (Data.number
          (List.foldl (fun x y => wrap64 (Int.tdiv x y)) acc xs))) none := by
  induction xs generalizing acc with
  | nil => simp [quotLoop, NumberWithValue]
  | cons h t ih =>
    have hh : h ≠ 0 := hnz h (by simp)
    simp [quotLoop, TypeOf, IntValue, hh, ih _ (fun d hd => hnz d (by simp [hd]))]

theorem addLoop_nonnumber (acc : Int) (args : List Data)
    (h : ∃ d ∈ args, TypeOf d ≠ DataType.NumberType) :
    addLoop acc args = .ret none (some "Number expected") := by
  induction args generalizing acc with
  | nil => simp at h
  | cons a t ih =>
    by_cases ha : TypeOf a = DataType.NumberType
    · have ht : ∃ d ∈ t, TypeOf d ≠ DataType.NumberType := by
        rcases h with ⟨d, hd, hdt⟩
        rcases List.mem_cons.mp hd with rfl | hmem
        · exact absurd ha hdt
        · exact ⟨d, hmem, hdt⟩
      simp [addLoop, ha, ih _ ht]
    · simp [addLoop, ha]

theorem mulLoop_nonnumber (acc : Int) (args : List Data)
    (h : ∃ d ∈ args, TypeOf d ≠ DataType.NumberType) :
    mulLoop acc args = .ret none (some "Number expected") := by
  induction args generalizing acc with
  | nil => simp at h
  | cons a t ih =>
    by_cases ha : TypeOf a = DataType.NumberType
    · have ht : ∃ d ∈ t, TypeOf d ≠ DataType.NumberType := by
        rcases h with ⟨d, hd, hdt⟩
        rcases List.mem_cons.mp hd with rfl | hmem
        · exact absurd ha hdt
        · exact ⟨d, hmem, hdt⟩
      simp [mulLoop, ha, ih _ ht]
    · simp [mulLoop, ha]

theorem subLoop_nonnumber (acc : Int) (args : List Data)
    (h : ∃ d ∈ args, TypeOf d ≠ DataType.NumberType) :
    subLoop acc args = .ret none (some "Number expected") := by
  induction args generalizing acc with
  | nil => simp at h
  | cons a t ih =>
    by_cases ha : TypeOf a = DataType.NumberType
    · have ht : ∃ d ∈ t, TypeOf d ≠ DataType.NumberType := by
        rcases h with ⟨d, hd, hdt⟩
        rcases List.mem_cons.mp hd with rfl | hmem
        · exact absurd ha hdt
        · exact ⟨d, hmem, hdt⟩
      simp [subLoop, ha, ih _ ht]
    · simp [subLoop, ha]

/-- Every return of `addLoop` is either a success with no error or an absent
result with an error message. -/
theorem addLoop_ret_shape (acc : Int) (args : List Data) (r : Option Data)
    (m : String) (h : addLoop acc args = .ret r (some m)) : r = none := by
  induction args generalizing acc with
  | nil => simp [addLoop] at h
  | cons a t ih =>
    by_cases ha : TypeOf a = DataType.NumberType
    · exact ih _ (by simpa [addLoop, ha] using h)
    · simp [addLoop, ha] at h
      exact h.1.symm

theorem mulLoop_ret_shape (acc : Int) (args : List Data) (r : Option Data)
    (m : String) (h : mulLoop acc args = .ret r (some m)) : r = none := by
  induction args generalizing acc with
  | nil => simp [mulLoop] at h
  | cons a t ih =>
    by_cases ha : TypeOf a = DataType.NumberType
    · exact ih _ (by simpa [mulLoop, ha] using h)
    · simp [mulLoop, ha] at h
      exact h.1.symm

theorem subLoop_ret_shape (acc : Int) (args : List Data) (r : Option Data)
    (m : String) (h : subLoop acc args = .ret r (some m)) : r = none := by
  induction args generalizing acc with
  | nil => simp [subLoop] at h
  | cons a t ih =>
    by_cases ha : TypeOf a = DataType.NumberType
    · exact ih _ (by simpa [subLoop, ha] using h)
    · simp [subLoop, ha] at h
      exact h.1.symm

theorem quotLoop_ret_shape (acc : Int) (args : List Data) (r : Option Data)
    (m : String) (h : quotLoop acc args = .ret r (some m)) : r = none := by
  induction args generalizing acc with
  | nil => simp [quotLoop] at h
  | cons a t ih =>
    by_cases ha : TypeOf a = DataType.NumberType
    · by_cases hz : IntValue a = 0
      · simp [quotLoop, ha, hz] at h
      · exact ih _ (by simpa [quotLoop, ha, hz] using h)
    · simp [quotLoop, ha] at h
      exact h.1.symm

/-! ### Claim theorems: arithmetic -/

/-- C7, counterexample: adding the representable operands
(maxInt64 1) = (2^63-1 1) wraps to minInt64, which is not their sum, so the
result of `Add` does not in general equal the sum of the operands. -/
theorem add_overflow_counterexample :
    Add [Data.number (2 ^ 63 - 1), Data.number 1]
      = .ret (some (Data.number (-(2 ^ 63)))) none ∧
    (-(2 ^ 63) : Int) ≠ (2 ^ 63 - 1) + 1 := by
  constructor <;> decide

/-- C7, amended: `Add` of an empty argument list returns 0 and `Multiply` of
an empty argument list returns 1; for one or more numeric operands both fold
Go's wrapping 64-bit operation left-to-right from that identity, so the
result is the sum (respectively the product) of the operands wrapped into the
64-bit int range — the exact sum/product whenever it stays representable. -/
theorem add_multiply_identity_and_fold :
    Add [] = .ret (some (Data.number 0)) none ∧
    Multiply [] = .ret (some (Data.number 1)) none ∧
    ∀ (xs : List Int), 1 ≤ xs.length →
      Add (xs.map Data.number)
        = .ret (some (Data.number (wrap64 xs.sum))) none ∧
      Multiply (xs.map Data.number)
        = .ret (some (Data.number (wrap64 xs.prod))) none := by
  refine ⟨rfl, rfl, fun xs _ => ⟨?_, ?_⟩⟩
  · have h := addLoop_map_number 0 xs
    rw [show (0 : Int) = wrap64 0 from by decide, foldl_wrapAdd] at h
    simpa using h
  · have h := mulLoop_map_number 1 xs
    rw [show (1 : Int) = wrap64 1 from by decide, foldl_wrapMul] at h
    simpa using h

/-- Witness for C7's amended claim at the operand list (2 3 4): sum 9,
product 24, both representable so the wrap is exact. -/
theorem add_multiply_identity_and_fold_witness :
    1 ≤ ([2, 3, 4] : List Int).length ∧
    Add (([2, 3, 4] : List Int).map Data.number)
      = .ret (some (Data.number 9)) none ∧
    Multiply (([2, 3, 4] : List Int).map Data.number)
      = .ret (some (Data.number 24)) none := by
  have h := add_multiply_identity_and_fold.2.2 [2, 3, 4] (by decide)
  exact ⟨by decide, h.1.trans (by decide), h.2.trans (by decide)⟩

/-- C6, counterexample: one-argument subtraction of the representable operand
minInt64 = -2^63 wraps back to minInt64, which is not its negation. -/
theorem subtract_min_int_counterexample :
    Subtract [Data.number (-(2 ^ 63))]
      = .ret (some (Data.number (-(2 ^ 63)))) none ∧
    (-(2 ^ 63) : Int) ≠ -(-(2 ^ 63) : Int) := by
  constructor <;> decide

/-- C6, amended: one-argument subtraction returns its operand's negation
wrapped to Go's 64-bit int range (the exact negation for every operand other
than minInt64); subtraction over two or more numeric operands left-folds
Go's wrapping subtraction; division over numeric operands left-folds Go's
truncated integer division, which wraps in its single overflow case
minInt64 / -1. -/
theorem subtract_negates_and_folds :
    (∀ n : Int, Subtract [Data.number n]
      = .ret (some (Data.number (wrap64 (-n)))) none) ∧
    (∀ (a : Int) (rest : List Int), rest ≠ [] →
      Subtract (Data.number a :: rest.map Data.number)
        = .ret (some (Data.number
            (List.foldl (fun x y => wrap64 (x - y)) a rest))) none) ∧
    (∀ (a : Int) (rest : List Int), (∀ d ∈ rest, d ≠ 0) →
      Quotient (Data.number a :: rest.map Data.number)
        = .ret (some (Data.number
            (List.foldl (fun x y => wrap64 (Int.tdiv x y)) a rest))) none) := by
  refine ⟨fun n => rfl, fun a rest hne => ?_, fun a rest hnz => ?_⟩
  · have hlen : Length (Data.number a :: rest.map Data.number) ≠ 1 := by
      simp [Length]
      intro h
      exact hne (List.eq_nil_of_length_eq_zero (by simpa using h))
    simpa [Subtract, Car, Cdr, TypeOf, IntValue, hlen] using subLoop_map_number a rest
  · simpa [Quotient, Car, Cdr, TypeOf, IntValue] using quotLoop_map_number a rest hnz

/-- Witness for C6's amended claim at the claim's own examples, all exact:
(- 5) = -5, (- 10 1 2) = 7, (/ 100 5 2) = 10. -/
theorem subtract_negates_and_folds_witness :
    Subtract [Data.number 5] = .ret (some (Data.number (-5))) none ∧
    (([1, 2] : List Int) ≠ [] ∧
      Subtract [Data.number 10, Data.number 1, Data.number 2]
        = .ret (some (Data.number 7)) none) ∧
    ((∀ d ∈ ([5, 2] : List Int), d ≠ 0) ∧
      Quotient [Data.number 100, Data.number 5, Data.number 2]
        = .ret (some (Data.number 10)) none) := by
  refine ⟨(subtract_negates_and_folds.1 5).trans (by decide),
    ⟨by decide, ?_⟩, ⟨by decide, ?_⟩⟩
  · have h := subtract_negates_and_folds.2.1 10 [1, 2] (by decide)
    exact h.trans (by decide)
  · have h := subtract_negates_and_folds.2.2 100 [5, 2] (by decide)
    exact h.trans (by decide)

/-- C5: any argument list containing a non-numeric operand at any position
makes `Add`, `Subtract` and `Multiply` fail with the type error
"Number expected" and an absent result. -/
theorem arith_nonnumber_type_error (args : List Data)
    (h : ∃ d ∈ args, TypeOf d ≠ DataType.NumberType) :
    Add args = .ret none (some "Number expected") ∧
    Subtract args = .ret none (some "Number expected") ∧
    Multiply args = .ret none (some "Number expected") := by
  refine ⟨addLoop_nonnumber 0 args h, ?_, mulLoop_nonnumber 1 args h⟩
  match args with
  | [] => simp at h
  | a :: t =>
    by_cases ha : TypeOf a = DataType.NumberType
    · have ht : ∃ d ∈ t, TypeOf d ≠ DataType.NumberType := by
        rcases h with ⟨d, hd, hdt⟩
        rcases List.mem_cons.mp hd with rfl | hmem
        · exact absurd ha hdt
        · exact ⟨d, hmem, hdt⟩
      have htne : t ≠ [] := by
        rcases ht with ⟨d, hd, _⟩
        exact List.ne_nil_of_mem hd
      have hlen : Length (a :: t) ≠ 1 := by
        simp [Length]
        intro hz
        exact htne hz
      simp [Subtract, Car, Cdr, ha, hlen, subLoop_nonnumber _ t ht]
    · simp [Subtract, Car, ha]

/-- Witness for C5 at the argument list (1 "x" 2). -/
theorem arith_nonnumber_type_error_witness :
    (∃ d ∈ [Data.number 1, Data.str "x", Data.number 2],
        TypeOf d ≠ DataType.NumberType) ∧
    Add [Data.number 1, Data.str "x", Data.number 2]
      = .ret none (some "Number expected") ∧
    Subtract [Data.number 1, Data.str "x", Data.number 2]
      = .ret none (some "Number expected") ∧
    Multiply [Data.number 1, Data.str "x", Data.number 2]
      = .ret none (some "Number expected") :=
  ⟨by decide, arith_nonnumber_type_error _ (by decide)⟩

/-- C2, counterexample: `Quotient` applied to the integer operands (1 0)
faults with the native integer-divide-by-zero panic instead of returning a
typed failure. -/
theorem quotient_zero_divisor_counterexample :
    Quotient [Data.number 1, Data.number 0]
      = .panic "runtime error: integer divide by zero" := rfl

/-- C2, amended: every failure *returned* by an arithmetic primitive carries
a message alongside an absent result; but `Quotient` on integer operands with
a zero divisor after the first operand does not return at all — it faults
with a native divide-by-zero panic. -/
theorem arith_failures_amended :
    (∀ (args : List Data) (r : Option Data) (m : String),
      (Add args = .ret r (some m) → r = none) ∧
      (Subtract args = .ret r (some m) → r = none) ∧
      (Multiply args = .ret r (some m) → r = none) ∧
      (Quotient args = .ret r (some m) → r = none)) ∧
    (∀ (a : Int) (pre post : List Int), (∀ d ∈ pre, d ≠ 0) →
      Quotient (Data.number a ::
          (pre.map Data.number ++ Data.number 0 :: post.map Data.number))
        = .panic "runtime error: integer divide by zero") := by
  constructor
  · intro args r m
    refine ⟨addLoop_ret_shape 0 args r m, ?_, mulLoop_ret_shape 1 args r m, ?_⟩
    · intro h
      unfold Subtract at h
      by_cases hc : TypeOf (Car args) = DataType.NumberType
      · simp [hc] at h
        by_cases hlen : Length args = 1
        · simp [hlen] at h
        · exact subLoop_ret_shape _ _ r m (by simpa [hlen] using h)
      · simp [hc] at h
        exact h.1.symm
    · intro h
      unfold Quotient at h
      by_cases hc : TypeOf (Car args) = DataType.NumberType
      · exact quotLoop_ret_shape _ _ r m (by simpa [hc] using h)
      · simp [hc] at h
        exact h.1.symm
  · intro a pre post hnz
    simp only [Quotient, Car, Cdr, TypeOf, List.headD_cons, ne_eq,
      not_true_eq_false, if_false, List.tail_cons, IntValue]
    induction pre generalizing a with
    | nil => simp [quotLoop, TypeOf, IntValue]
    | cons h t ih =>
      have hh : h ≠ 0 := hnz h (by simp)
      simp [quotLoop, TypeOf, IntValue, hh,
        ih _ (fun d hd => hnz d (by simp [hd]))]

/-- Witness for C2's amended claim: a returned type failure of `Add` has an
absent result, and `Quotient` at (1 0) panics. -/
theorem arith_failures_amended_witness :
    (Add [Data.str "x"] = .ret none (some "Number expected") → (none : Option Data) = none) ∧
    ((∀ d ∈ ([] : List Int), d ≠ 0) ∧
      Quotient (Data.number 1 ::
          (([] : List Int).map Data.number ++
            Data.number 0 :: ([] : List Int).map Data.number))
        = .panic "runtime error: integer divide by zero") :=
  ⟨(arith_failures_amended.1 [Data.str "x"] none "Number expected").1,
   by decide, arith_failures_amended.2 1 [] [] (by decide)⟩

/-! ### Claim theorems: the `If` special form and the binary-search stub -/

/-- C3: on a two-branch call, a truthy condition makes `If` evaluate exactly
the condition and the then-branch (the trace is `[c, t]`, so the else-branch
is never evaluated) and return the then-branch's value; a false condition
evaluates exactly the condition and the else-branch; any argument list with a
third trailing clause after the two branches fails with the arity error
"Too many arguments to IF". -/
theorem if_evaluates_one_branch_and_checks_arity (ev : Data → Data) (c t e : Data) :
    (BooleanValue (ev c) = true →
      If ev [c, t, e] = ((some (ev t), none), [c, t])) ∧
    (BooleanValue (ev c) = false →
      If ev [c, t, e] = ((some (ev e), none), [c, e])) ∧
    (∀ (x : Data) (rest : List Data),
      If ev (c :: t :: e :: x :: rest)
        = ((none, some "Too many arguments to IF"), [c])) := by
  refine ⟨fun hc => ?_, fun hc => ?_, fun x rest => ?_⟩
  · simp [If, Car, Cadr, Caddr, Cdddr, hc]
  · simp [If, Car, Cadr, Caddr, Cdddr, hc]
  · simp [If, Car, Cdddr]

/-- Witness for C3 with the identity evaluation oracle: a true condition
selects the then-branch, and a four-clause call errors. -/
theorem if_evaluates_one_branch_and_checks_arity_witness :
    BooleanValue ((fun d => d) (Data.boolean true)) = true ∧
    If (fun d => d) [Data.boolean true, Data.number 1, Data.number 2]
      = ((some (Data.number 1), none), [Data.boolean true, Data.number 1]) ∧
    If (fun d => d) [Data.boolean true, Data.number 1, Data.number 2, Data.number 3]
      = ((none, some "Too many arguments to IF"), [Data.boolean true]) :=
  ⟨by decide,
   (if_evaluates_one_branch_and_checks_arity (fun d => d)
      (Data.boolean true) (Data.number 1) (Data.number 2)).1 (by decide),
   (if_evaluates_one_branch_and_checks_arity (fun d => d)
      (Data.boolean true) (Data.number 1) (Data.number 2)).2.2 (Data.number 3) []⟩

/-- C10: `vector-binary-search` is registered with an exact-4 arity spec, yet
its implementation is an empty stub: every call returns the nil result and no
error. -/
theorem vector_binary_search_is_stub :
    (∀ (s : Store) (args : List Data), VectorBinarySearchImpl s args = .ret none none) ∧
    ("vector-binary-search", "4") ∈ RegisterVectorPrimitives :=
  ⟨fun _ _ => rfl, by simp [RegisterVectorPrimitives]⟩

/-! ### Helper lemmas about the slice store -/

theorem arr_append_old (s : Store) (a : List Data) (id : Nat) (h : id < List.length s) :
    Store.arr (s ++ [a]) id = s.arr id := by
  unfold Store.arr
  exact List.getD_append _ _ _ _ h

theorem arr_append_new (s : Store) (a : List Data) :
    Store.arr (s ++ [a]) (List.length s) = a := by
  unfold Store.arr
  rw [List.getD_append_right _ _ _ _ (Nat.le_refl _)]
  simp

theorem arr_setArr_self (s : Store) (id : Nat) (b : List Data) (h : id < List.length s) :
    Store.arr (s.setArr id b) id = b := by
  unfold Store.arr Store.setArr
  rw [List.getD_eq_getElem _ _ (by simpa using h)]
  simp

theorem arr_setArr_ne (s : Store) (id id2 : Nat) (b : List Data) (h : id2 ≠ id) :
    Store.arr (s.setArr id b) id2 = s.arr id2 := by
  unfold Store.arr Store.setArr
  by_cases hm : id2 < List.length s
  · rw [List.getD_eq_getElem _ _ (by simpa using hm), List.getD_eq_getElem _ _ hm]
    simp [List.getElem_set, Ne.symm h]
  · rw [List.getD_eq_default _ _ (by simpa using (Nat.le_of_not_lt hm)),
      List.getD_eq_default _ _ (Nat.le_of_not_lt hm)]

theorem getD_set_self (l : List Data) (n : Nat) (a d : Data) (h : n < List.length l) :
    (l.set n a).getD n d = a := by
  rw [List.getD_eq_getElem _ _ (by simpa using h)]
  simp

theorem VectorValue_length (s : Store) (id off len : Nat)
    (hwf : wfVec s (Data.vector id off len)) :
    List.length (VectorValue s (Data.vector id off len)) = len := by
  rcases hwf with ⟨_, hfit⟩
  simp only [VectorValue, vecId, vecOff, vecLen] at hfit ⊢
  rw [List.length_take, List.length_drop]
  omega

/-! ### Claim theorems: vector primitives -/

/-- C1: the code misses the bounds checks the claim describes.  At the
one-element vector `#(7)` held in the store, `vector-set!` at the in-range
index 0 round-trips through `vector-ref`, but `vector-set!` at the
out-of-bounds index 1 and `vector-ref` at the negative index -1 both perform
an unchecked Go slice access and fault with a native index-out-of-range panic
instead of returning an IndexError. -/
theorem vector_set_ref_bounds_divergence :
    VectorSetImpl [[Data.number 7]] [Data.vector 0 0 1, Data.number 0, Data.number 42]
      = (.ret (some (Data.str "OK")) none, [[Data.number 42]]) ∧
    VectorRefImpl [[Data.number 42]] [Data.vector 0 0 1, Data.number 0]
      = .ret (some (Data.number 42)) none ∧
    VectorSetImpl [[Data.number 7]] [Data.vector 0 0 1, Data.number 1, Data.number 42]
      = (.panic "runtime error: index out of range", [[Data.number 7]]) ∧
    VectorRefImpl [[Data.number 7]] [Data.vector 0 0 1, Data.number (-1)]
      = .panic "runtime error: index out of range" := by
  refine ⟨?_, ?_, ?_, ?_⟩ <;> decide

/-- C8: `vector-grow` of a well-formed vector fails with the domain error and
an unchanged store when the requested size is not larger than the current
length; when it is larger it returns a vector of the requested length backed
by a freshly allocated array — distinct from the argument, its first
`len` elements the argument's elements in order — and the argument vector
still observes its original elements in the new store. -/
theorem vector_grow_domain_and_fresh (s : Store) (id off len : Nat) (k : Int)
    (hwf : wfVec s (Data.vector id off len)) :
    (k ≤ (len : Int) →
      VectorGrowImpl s [Data.vector id off len, Data.number k]
        = (.ret none (some "vector-grow needs a new size that is larger than the size of its vector argument"), s)) ∧
    ((len : Int) < k →
      VectorGrowImpl s [Data.vector id off len, Data.number k]
        = (.ret (some (Data.vector (List.length s) 0 k.toNat)) none,
           s ++ [VectorValue s (Data.vector id off len)
                  ++ List.replicate (k.toNat - len) Data.nil]) ∧
      Data.vector (List.length s) 0 k.toNat ≠ Data.vector id off len ∧
      vecLen (Data.vector (List.length s) 0 k.toNat) = k.toNat ∧
      (VectorValue (s ++ [VectorValue s (Data.vector id off len)
          ++ List.replicate (k.toNat - len) Data.nil])
          (Data.vector (List.length s) 0 k.toNat)).take len
        = VectorValue s (Data.vector id off len) ∧
      VectorValue (s ++ [VectorValue s (Data.vector id off len)
          ++ List.replicate (k.toNat - len) Data.nil])
          (Data.vector id off len)
        = VectorValue s (Data.vector id off len)) := by
  have hol := VectorValue_length s id off len hwf
  constructor
  · intro hle
    have hle2 : k ≤ (↑(List.length (VectorValue s (Data.vector id off len))) : Int) := by
      rw [hol]; exact hle
    simp [VectorGrowImpl, First, Second, Car, Cadr, VectorP, IntegerP,
      IntValue, hle2]
  · intro hlt
    have hnle : ¬ (k ≤ (↑(List.length (VectorValue s (Data.vector id off len))) : Int)) := by
      rw [hol]; omega
    have hmain : VectorGrowImpl s [Data.vector id off len, Data.number k]
        = (.ret (some (Data.vector (List.length s) 0 k.toNat)) none,
           s ++ [VectorValue s (Data.vector id off len)
                  ++ List.replicate (k.toNat - len) Data.nil]) := by
      simp only [VectorGrowImpl, First, Second, Car, Cadr, List.headD_cons,
        List.drop_succ_cons, List.drop_zero, VectorP, IntegerP, IntValue]
      simp only [Store.alloc, hnle, if_false]
      rw [hol]
      simp
    refine ⟨hmain, ?_, rfl, ?_, ?_⟩
    · intro hcontr
      have hinj : List.length s = id ∧ 0 = off ∧ k.toNat = len := by
        simpa [Data.vector.injEq] using hcontr
      have hlt : id < List.length s := by simpa [vecId] using hwf.1
      omega
    · have hfresh : Store.arr (s ++ [VectorValue s (Data.vector id off len)
          ++ List.replicate (k.toNat - len) Data.nil]) (List.length s)
          = VectorValue s (Data.vector id off len)
            ++ List.replicate (k.toNat - len) Data.nil := arr_append_new s _
      have hlenk : len ≤ k.toNat := by omega
      have hlenall : List.length (VectorValue s (Data.vector id off len)
          ++ List.replicate (k.toNat - len) Data.nil) = k.toNat := by
        rw [List.length_append, hol, List.length_replicate]
        omega
      have hVW : VectorValue (s ++ [VectorValue s (Data.vector id off len)
            ++ List.replicate (k.toNat - len) Data.nil])
            (Data.vector (List.length s) 0 k.toNat)
          = VectorValue s (Data.vector id off len)
            ++ List.replicate (k.toNat - len) Data.nil := by
        simp only [VectorValue, vecId, vecOff, vecLen, List.drop_zero]
        rw [arr_append_new]
        exact List.take_of_length_le (Nat.le_of_eq hlenall)
      rw [hVW]
      exact List.take_left' hol
    · simp only [VectorValue, vecId, vecOff, vecLen]
      rw [arr_append_old s _ id hwf.1]

/-- Witness for C8 at `#(7)` grown to size 3. -/
theorem vector_grow_domain_and_fresh_witness :
    wfVec [[Data.number 7]] (Data.vector 0 0 1) ∧ ((1 : Nat) : Int) < 3 ∧
    VectorGrowImpl [[Data.number 7]] [Data.vector 0 0 1, Data.number 3]
      = (.ret (some (Data.vector 1 0 3)) none,
         [[Data.number 7], [Data.number 7, Data.nil, Data.nil]]) := by
  refine ⟨by decide, by decide, ?_⟩
  have h := ((vector_grow_domain_and_fresh [[Data.number 7]] 0 0 1 3 (by decide)).2
    (by decide)).1
  exact h.trans (by decide)

/-- In-bounds `vector-set!` through any view: the backing array is updated at
the view's offset plus the index. -/
theorem VectorSetImpl_inbounds (s : Store) (id woff wlen j : Nat) (x : Data)
    (hj : j < wlen) :
    VectorSetImpl s [Data.vector id woff wlen, Data.number j, x]
      = (.ret (some (Data.str "OK")) none,
         Store.setArr s id (List.set (s.arr id) (woff + j) x)) := by
  have hcond : 0 ≤ ((j : Nat) : Int) ∧ ((j : Nat) : Int) < ((wlen : Nat) : Int) := by
    constructor
    · exact Int.natCast_nonneg j
    · exact_mod_cast hj
  simp only [VectorSetImpl, First, Second, Third, Car, Cadr, Caddr,
    List.headD_cons, List.drop_succ_cons, List.drop_zero, VectorP, IntegerP,
    IntValue, goSliceSet, vecId, vecOff, vecLen, Bool.not_true,
    not_false_eq_true]
  rw [if_pos hcond]
  simp [StringWithValue]

/-- In-bounds `vector-ref` through any view: reads the backing array at the
view's offset plus the index. -/
theorem VectorRefImpl_inbounds (s : Store) (id woff wlen i : Nat)
    (hi : i < wlen) :
    VectorRefImpl s [Data.vector id woff wlen, Data.number i]
      = .ret (some (List.getD (s.arr id) (woff + i) Data.nil)) none := by
  have hlt : ¬ (((i : Nat) : Int) ≥ ((wlen : Nat) : Int)) := by
    omega
  have hcond : 0 ≤ ((i : Nat) : Int) ∧ ((i : Nat) : Int) < ((wlen : Nat) : Int) := by
    constructor
    · exact Int.natCast_nonneg i
    · exact_mod_cast hi
  simp only [VectorRefImpl, First, Second, Car, Cadr, List.headD_cons,
    List.drop_succ_cons, List.drop_zero, VectorP, IntegerP, IntValue,
    goSliceGet, vecId, vecOff, vecLen]
  rw [if_neg hlt, if_pos hcond]
  simp

/-- Writing through one view of a backing array is observed through any other
view of the same array whose window covers the written cell. -/
theorem set_then_ref_shared (s : Store) (id off len woff wlen : Nat)
    (hid : id < List.length s) (hfit : off + len ≤ List.length (s.arr id))
    (j i : Nat) (x : Data) (hj : j < wlen) (hi : i < len)
    (heq : woff + j = off + i) :
    ∀ s2 : Store,
      VectorSetImpl s [Data.vector id woff wlen, Data.number j, x]
        = (.ret (some (Data.str "OK")) none, s2) →
      VectorRefImpl s2 [Data.vector id off len, Data.number i]
        = .ret (some x) none := by
  intro s2 hset
  have h1 := VectorSetImpl_inbounds s id woff wlen j x hj
  have h2 := h1.symm.trans hset
  have hs2 : Store.setArr s id (List.set (s.arr id) (woff + j) x) = s2 :=
    congrArg Prod.snd h2
  rw [VectorRefImpl_inbounds s2 id off len i hi, ← hs2,
    arr_setArr_self s id _ hid, heq,
    getD_set_self (s.arr id) (off + i) x Data.nil (by omega)]

theorem SubVectorImpl_ok (s : Store) (id off len start endi : Nat)
    (hwf : wfVec s (Data.vector id off len))
    (h1 : start < len) (h2 : start ≤ endi) (h3 : endi ≤ len) :
    SubVectorImpl s [Data.vector id off len, Data.number start, Data.number endi]
      = .ret (some (Data.vector id (off + start) (endi - start))) none := by
  have hol := VectorValue_length s id off len hwf
  have hc1 : ¬ (((start : Nat) : Int) < 0 ∨
      ((start : Nat) : Int) ≥ ↑(List.length (VectorValue s (Data.vector id off len)))) := by
    rw [hol]
    omega
  have hc2 : ¬ (((endi : Nat) : Int) < ((start : Nat) : Int) ∨
      ((endi : Nat) : Int) > ↑(List.length (VectorValue s (Data.vector id off len)))) := by
    rw [hol]
    omega
  simp only [SubVectorImpl, First, Second, Third, Car, Cadr, Caddr,
    List.headD_cons, List.drop_succ_cons, List.drop_zero, VectorP, IntegerP,
    IntValue, vecId, vecOff]
  rw [if_neg hc1, if_neg hc2]
  simp

theorem VectorHeadImpl_ok (s : Store) (id off len endi : Nat)
    (hwf : wfVec s (Data.vector id off len)) (h1 : endi ≤ len) :
    VectorHeadImpl s [Data.vector id off len, Data.number endi]
      = .ret (some (Data.vector id off endi)) none := by
  have hol := VectorValue_length s id off len hwf
  have hc1 : ¬ (((endi : Nat) : Int) < 0 ∨
      ((endi : Nat) : Int) > ↑(List.length (VectorValue s (Data.vector id off len)))) := by
    rw [hol]
    omega
  simp only [VectorHeadImpl, First, Second, Car, Cadr, List.headD_cons,
    List.drop_succ_cons, List.drop_zero, VectorP, IntegerP, IntValue,
    vecId, vecOff]
  rw [if_neg hc1]
  simp

theorem VectorTailImpl_ok (s : Store) (id off len start : Nat)
    (hwf : wfVec s (Data.vector id off len)) (h1 : start ≤ len) :
    VectorTailImpl s [Data.vector id off len, Data.number start]
      = .ret (some (Data.vector id (off + start) (len - start))) none := by
  have hol := VectorValue_length s id off len hwf
  have hc1 : ¬ (((start : Nat) : Int) < 0 ∨
      ((start : Nat) : Int) > ↑(List.length (VectorValue s (Data.vector id off len)))) := by
    rw [hol]
    omega
  simp only [VectorTailImpl, First, Second, Car, Cadr, List.headD_cons,
    List.drop_succ_cons, List.drop_zero, VectorP, IntegerP, IntValue,
    vecId, vecOff, vecLen]
  rw [if_neg hc1]
  simp

theorem VectorCopyImpl_ok (s : Store) (id off len : Nat) :
    VectorCopyImpl s [Data.vector id off len]
      = (.ret (some (Data.vector (List.length s) 0 len)) none,
         s ++ [VectorValue s (Data.vector id off len)]) := by
  simp [VectorCopyImpl, First, Car, VectorP, Store.alloc, vecLen]

/-- C9: the vectors returned by `subvector`, `vector-head` and `vector-tail`
share element storage with their input: for any valid range and in-range
position `j` of the returned vector, a `vector-set!` through the returned
vector is observed by `vector-ref` at the corresponding position of the input
and vice versa; in contrast, the vector returned by `vector-copy` has a fresh
backing array, and mutating it leaves the input's observable elements
unchanged. -/
theorem subvector_head_tail_share_storage_copy_does_not
    (s : Store) (id off len : Nat) (hwf : wfVec s (Data.vector id off len)) :
    (∀ (start endi j : Nat) (x : Data),
      start < len → start ≤ endi → endi ≤ len → j < endi - start →
      SubVectorImpl s [Data.vector id off len, Data.number start, Data.number endi]
        = .ret (some (Data.vector id (off + start) (endi - start))) none ∧
      (∀ s2 : Store,
        VectorSetImpl s [Data.vector id (off + start) (endi - start), Data.number j, x]
          = (.ret (some (Data.str "OK")) none, s2) →
        VectorRefImpl s2 [Data.vector id off len, Data.number (start + j)]
          = .ret (some x) none) ∧
      (∀ s2 : Store,
        VectorSetImpl s [Data.vector id off len, Data.number (start + j), x]
          = (.ret (some (Data.str "OK")) none, s2) →
        VectorRefImpl s2 [Data.vector id (off + start) (endi - start), Data.number j]
          = .ret (some x) none)) ∧
    (∀ (endi j : Nat) (x : Data), endi ≤ len → j < endi →
      VectorHeadImpl s [Data.vector id off len, Data.number endi]
        = .ret (some (Data.vector id off endi)) none ∧
      (∀ s2 : Store,
        VectorSetImpl s [Data.vector id off endi, Data.number j, x]
          = (.ret (some (Data.str "OK")) none, s2) →
        VectorRefImpl s2 [Data.vector id off len, Data.number j]
          = .ret (some x) none) ∧
      (∀ s2 : Store,
        VectorSetImpl s [Data.vector id off len, Data.number j, x]
          = (.ret (some (Data.str "OK")) none, s2) →
        VectorRefImpl s2 [Data.vector id off endi, Data.number j]
          = .ret (some x) none)) ∧
    (∀ (start j : Nat) (x : Data), start ≤ len → j < len - start →
      VectorTailImpl s [Data.vector id off len, Data.number start]
        = .ret (some (Data.vector id (off + start) (len - start))) none ∧
      (∀ s2 : Store,
        VectorSetImpl s [Data.vector id (off + start) (len - start), Data.number j, x]
          = (.ret (some (Data.str "OK")) none, s2) →
        VectorRefImpl s2 [Data.vector id off len, Data.number (start + j)]
          = .ret (some x) none) ∧
      (∀ s2 : Store,
        VectorSetImpl s [Data.vector id off len, Data.number (start + j), x]
          = (.ret (some (Data.str "OK")) none, s2) →
        VectorRefImpl s2 [Data.vector id (off + start) (len - start), Data.number j]
          = .ret (some x) none)) ∧
    (∀ (j : Nat) (x : Data), j < len →
      VectorCopyImpl s [Data.vector id off len]
        = (.ret (some (Data.vector (List.length s) 0 len)) none,
           s ++ [VectorValue s (Data.vector id off len)]) ∧
      (∀ s2 : Store,
        VectorSetImpl (s ++ [VectorValue s (Data.vector id off len)])
            [Data.vector (List.length s) 0 len, Data.number j, x]
          = (.ret (some (Data.str "OK")) none, s2) →
        VectorValue s2 (Data.vector id off len)
          = VectorValue s (Data.vector id off len))) := by
  obtain ⟨hid, hfit⟩ := hwf
  simp only [vecId, vecOff, vecLen] at hid hfit
  refine ⟨?_, ?_, ?_, ?_⟩
  · intro start endi j x h1 h2 h3 hj
    refine ⟨SubVectorImpl_ok s id off len start endi ⟨hid, hfit⟩ h1 h2 h3, ?_, ?_⟩
    · exact set_then_ref_shared s id off len (off + start) (endi - start)
        hid hfit j (start + j) x hj (by omega) (by omega)
    · exact set_then_ref_shared s id (off + start) (endi - start) off len
        hid (by omega) (start + j) j x (by omega) (by omega) (by omega)
  · intro endi j x h1 hj
    refine ⟨VectorHeadImpl_ok s id off len endi ⟨hid, hfit⟩ h1, ?_, ?_⟩
    · exact set_then_ref_shared s id off len off endi
        hid hfit j j x hj (by omega) rfl
    · exact set_then_ref_shared s id off endi off len
        hid (by omega) j j x (by omega) hj rfl
  · intro start j x h1 hj
    refine ⟨VectorTailImpl_ok s id off len start ⟨hid, hfit⟩ h1, ?_, ?_⟩
    · exact set_then_ref_shared s id off len (off + start) (len - start)
        hid hfit j (start + j) x hj (by omega) (by omega)
    · exact set_then_ref_shared s id (off + start) (len - start) off len
        hid (by omega) (start + j) j x (by omega) (by omega) (by omega)
  · intro j x hj
    refine ⟨VectorCopyImpl_ok s id off len, ?_⟩
    intro s2 hset
    have h1 := VectorSetImpl_inbounds (s ++ [VectorValue s (Data.vector id off len)])
      (List.length s) 0 len j x hj
    have h2 := h1.symm.trans hset
    have hs2 : Store.setArr (s ++ [VectorValue s (Data.vector id off len)])
        (List.length s)
        (List.set ((s ++ [VectorValue s (Data.vector id off len)]).arr (List.length s))
          (0 + j) x) = s2 :=
      congrArg Prod.snd h2
    rw [← hs2]
    simp only [VectorValue, vecId, vecOff, vecLen]
    rw [arr_setArr_ne _ _ id _ (Nat.ne_of_lt hid), arr_append_old s _ id hid]

/-- Witness for C9 on the store holding one two-element array `#(7 8)`:
the subvector `#(8)` of `#(7 8)` shares storage, and mutating the copy of
`#(7 8)` does not change the original. -/
theorem subvector_head_tail_share_storage_copy_does_not_witness :
    wfVec [[Data.number 7, Data.number 8]] (Data.vector 0 0 2) ∧
    SubVectorImpl [[Data.number 7, Data.number 8]]
        [Data.vector 0 0 2, Data.number 1, Data.number 2]
      = .ret (some (Data.vector 0 1 1)) none ∧
    VectorSetImpl [[Data.number 7, Data.number 8]]
        [Data.vector 0 1 1, Data.number 0, Data.number 9]
      = (.ret (some (Data.str "OK")) none, [[Data.number 7, Data.number 9]]) ∧
    VectorRefImpl [[Data.number 7, Data.number 9]]
        [Data.vector 0 0 2, Data.number 1]
      = .ret (some (Data.number 9)) none ∧
    VectorCopyImpl [[Data.number 7, Data.number 8]] [Data.vector 0 0 2]
      = (.ret (some (Data.vector 1 0 2)) none,
         [[Data.number 7, Data.number 8], [Data.number 7, Data.number 8]]) ∧
    VectorValue
        [[Data.number 7, Data.number 8], [Data.number 9, Data.number 8]]
        (Data.vector 0 0 2)
      = VectorValue [[Data.number 7, Data.number 8]] (Data.vector 0 0 2) := by
  have h := subvector_head_tail_share_storage_copy_does_not
    [[Data.number 7, Data.number 8]] 0 0 2 (by decide)
  have hsub := h.1 1 2 0 (Data.number 9) (by decide) (by decide) (by decide) (by decide)
  have hcopy := h.2.2.2 0 (Data.number 9) (by decide)
  refine ⟨by decide, ?_, ?_, ?_, ?_, ?_⟩
  · exact hsub.1.trans (by decide)
  · decide
  · have := hsub.2.1 [[Data.number 7, Data.number 9]] (by decide)
    exact this.trans (by decide)
  · exact hcopy.1.trans (by decide)
  · have := hcopy.2
      [[Data.number 7, Data.number 8], [Data.number 9, Data.number 8]] (by decide)
    exact this.trans (by decide)

/-! ### Claim theorems: the debug controller -/

/-- C4: `ProcessError` returns a propagating error exactly when the
conjunction "break-on-error is enabled, execution is interactive, and the
failure did not originate at the debugger's own prompt" fails; when the
conjunction holds the failure is rerouted into the debugger command loop and
no error is returned, and a return-with-value command whose expression
evaluates to `d` installs `d` as the override result, so the originally
failing evaluation resumes successfully with value `d`. -/
theorem process_error_reroute_and_override (msg : String) (env : Frame)
    (st : DebugState) (inputs : List DebugInput) (d : Data) :
    ((ProcessError msg env st inputs).returnedError = some msg ↔
      (st.DebugOnError && st.IsInteractive && !st.DebugEvalInDebugRepl) = false) ∧
    ((st.DebugOnError && st.IsInteractive && !st.DebugEvalInDebugRepl) = true →
      (ProcessError msg env st inputs).returnedError = none ∧
      ProcessError msg env st [DebugInput.ret (Except.ok d)]
        = .replExited (.returned
            { st with
              DebugReturnValue := some d, DebugCurrentFrame := none,
              DebugSingleStep := false, DebugEvalInDebugRepl := false }) ∧
      resumeAfterError (ProcessError msg env st [DebugInput.ret (Except.ok d)])
        = .ok (some d)) := by
  constructor
  · by_cases hc : (st.DebugOnError && st.IsInteractive && !st.DebugEvalInDebugRepl) = true
    · simp [ProcessError, hc, PEOutcome.returnedError]
    · simp only [ProcessError, hc, if_false]
      simp [PEOutcome.returnedError]
  · intro hc
    refine ⟨by simp [ProcessError, hc, PEOutcome.returnedError], ?_, ?_⟩
    · simp [ProcessError, hc, DebugRepl]
    · simp [ProcessError, hc, DebugRepl, resumeAfterError, ReplOutcome.state]

/-- Witness for C4 in the state with break-on-error set, interactive
execution, and a failure not originating at the debugger prompt: the error is
rerouted (no propagating error), and a return-with-value command carrying 42
makes the failed evaluation resume with 42. -/
theorem process_error_reroute_and_override_witness :
    (breakOnErrorState.DebugOnError && breakOnErrorState.IsInteractive
      && !breakOnErrorState.DebugEvalInDebugRepl) = true ∧
    (ProcessError "undefined symbol" Frame.root breakOnErrorState
        [DebugInput.ret (Except.ok (Data.number 42))]).returnedError = none ∧
    resumeAfterError (ProcessError "undefined symbol" Frame.root breakOnErrorState
        [DebugInput.ret (Except.ok (Data.number 42))])
      = .ok (some (Data.number 42)) := by
  have h := (process_error_reroute_and_override "undefined symbol" Frame.root
      breakOnErrorState
      [DebugInput.ret (Except.ok (Data.number 42))] (Data.number 42)).2 rfl
  exact ⟨rfl, h.1, h.2.2⟩

end GoLisp
